import Mathlib

/-!
Shallow embedding of `src/main/linux-accent-color.js` (FreeTube, Linux accent
color detection).

The JavaScript module exposes `getLinuxAccentColor`, which tries three
strategies in a fixed order (`xdgDesktopPortal`, `ubuntu`,
`gnomeCustomAccentColorExtension`), memoizes the index of the first
strategy that yields a color in the module-level variable
`usedStrategyIndex`, and returns `null` when none applies.

Each strategy runs an external command through `runCommandHelper` and
parses the command's stdout.  In the embedding the external world is an
environment `Env` assigning to each strategy index the outcome of its
command (launch failure / non-zero exit carrying an error value, or a
stdout string); the per-strategy parsing is embedded as pure functions on
the stdout string.  Numeric values parsed by JavaScript's `parseFloat` are
modelled as exact decimals (`JsNum`, a mantissa over a power of ten) with
their rational value (`ℚ`) used in specifications: for the concrete
decimal literals of the claims the floating-point computation and the
exact computation agree.
-/

/-- The set matched by the JavaScript regex class `\s` (whitespace):
ASCII whitespace, NBSP, Unicode space separators, line/paragraph
separators, narrow no-break space, medium mathematical space, ideographic
space and BOM. -/
def jsWhitespace (c : Char) : Bool :=
  c = ' ' || c = '\t' || c = '\n' || c = '\x0b' || c = '\x0c' || c = '\r' ||
  c = ' ' || c = ' ' ||
  (0x2000 ≤ c.toNat && c.toNat ≤ 0x200a) ||
  c = ' ' || c = ' ' || c = ' ' || c = ' ' ||
  c = '　' || c = '﻿'

/-- `String.prototype.trim()` on the character list: drop leading and
trailing whitespace. -/
def jsTrim (cs : List Char) : List Char :=
  ((cs.dropWhile jsWhitespace).reverse.dropWhile jsWhitespace).reverse

/-- Strip an expected prefix: `stripPrefixList p cs = some r` iff `cs = p ++ r`. -/
def stripPrefixList : List Char → List Char → Option (List Char)
  | [], cs => some cs
  | _ :: _, [] => none
  | p :: ps, c :: cs => if c = p then stripPrefixList ps cs else none

/-- The numeric value of a digit string (used for the integer and
fractional digit runs captured by the portal regex). -/
def digitsToNat (ds : List Char) : Nat :=
  ds.foldl (fun acc c => 10 * acc + (c.toNat - 48)) 0

/-- An exact decimal number `mant / 10 ^ scale`, the value JavaScript's
`parseFloat` denotes on the digit strings the portal regex can capture
(which contain no sign, so the value is a quotient of naturals). -/
structure JsNum where
  mant : Nat
  scale : Nat
  deriving DecidableEq, Repr

/-- The rational value of an exact decimal. -/
def JsNum.toQ (v : JsNum) : ℚ := (v.mant : ℚ) / 10 ^ v.scale

/-- Exact comparison `a < b` of two decimals, by cross-multiplication. -/
def JsNum.blt (a b : JsNum) : Bool :=
  a.mant * 10 ^ b.scale < b.mant * 10 ^ a.scale

/-- The literal `0.0` of the range check. -/
def jsZero : JsNum := ⟨0, 0⟩

/-- The literal `1.0` of the range check. -/
def jsOne : JsNum := ⟨1, 0⟩

/-- `Math.floor(value * 255)` on an exact decimal. -/
def JsNum.floorMul255 (v : JsNum) : Nat := 255 * v.mant / 10 ^ v.scale

/-- JavaScript `parseFloat` restricted to the strings the portal regex can
capture (`\d+(?:[,.]\d+)?`): it reads the longest prefix that is a valid
decimal literal, so digits before a `.` plus an optional fraction, and it
STOPS at a `,` (a comma is not part of a JavaScript number literal). -/
def parseFloatNum (cap : List Char) : JsNum :=
  let intPart := cap.takeWhile Char.isDigit
  let rest := cap.dropWhile Char.isDigit
  match rest with
  | '.' :: frac =>
    let fr := frac.takeWhile Char.isDigit
    ⟨digitsToNat intPart * 10 ^ fr.length + digitsToNat fr, fr.length⟩
  | _ => ⟨digitsToNat intPart, 0⟩

/-- The rational value `parseFloat` extracts from a capture. -/
def parseFloatQ (cap : List Char) : ℚ := (parseFloatNum cap).toQ

/-- Attempt to match the regex `double\s+(\d+(?:[,.]\d+)?)` at the head of
`cs`.  On success returns the captured group and the remaining characters
after the match (the quantifiers are greedy; nothing follows the optional
group, so greediness is safe). -/
def matchDoubleAt (cs : List Char) : Option (List Char × List Char) :=
  match stripPrefixList "double".toList cs with
  | none => none
  | some cs1 =>
    let ws := cs1.takeWhile jsWhitespace
    let cs2 := cs1.dropWhile jsWhitespace
    if ws.isEmpty then none
    else
      let ds := cs2.takeWhile Char.isDigit
      let cs3 := cs2.dropWhile Char.isDigit
      if ds.isEmpty then none
      else
        match cs3 with
        | sep :: cs4 =>
          if sep = ',' || sep = '.' then
            let ds2 := cs4.takeWhile Char.isDigit
            let cs5 := cs4.dropWhile Char.isDigit
            if ds2.isEmpty then some (ds, cs3)
            else some (ds ++ sep :: ds2, cs5)
          else some (ds, cs3)
        | [] => some (ds, [])

/-- `matchAll` scan: walk left to right; after a match continue after its
end, after a failure advance one character.  `fuel` bounds the recursion
(each step consumes at least one character, so `cs.length` fuel is enough). -/
def scanAux : Nat → List Char → List (List Char)
  | 0, _ => []
  | _ + 1, [] => []
  | fuel + 1, c :: rest =>
    match matchDoubleAt (c :: rest) with
    | some (cap, rem) => cap :: scanAux fuel rem
    | none => scanAux fuel rest

/-- All captures of `/double\s+(\d+(?:[,.]\d+)?)/g` over `cs`, in order. -/
def scanDoubles (cs : List Char) : List (List Char) :=
  scanAux cs.length cs

/-- One lowercase hexadecimal digit (`Number.prototype.toString(16)` digit). -/
def hexDigit (n : Nat) : Char :=
  if n < 10 then Char.ofNat (48 + n) else Char.ofNat (87 + n)

/-- `n.toString(16).padStart(2, '0')` for `n ≤ 255`: two lowercase hex digits. -/
def toHexByte (n : Nat) : String :=
  String.mk [hexDigit (n / 16), hexDigit (n % 16)]

/-- The captures of the portal regex over the trimmed command output
(`[...output.trim().matchAll(/double\s+(\d+(?:[,.]\d+)?)/g)]`, keeping
`match[1]`). -/
def xdgMatches (output : String) : List (List Char) :=
  scanDoubles (jsTrim output.toList)

/-- The channel values `parseFloat(match[1])` extracted by the portal
strategy, in order. -/
def xdgValues (output : String) : List ℚ :=
  (xdgMatches output).map parseFloatQ

/-- The per-channel loop of `xdgDesktopPortal`: reject any value outside
`[0, 1]` (`value < 0.0 || value > 1.0` in the source), otherwise append
`Math.floor(value * 255)` as a two-digit lowercase hex byte. -/
def buildHex : List (List Char) → Option String
  | [] => some ""
  | cap :: rest =>
    let value := parseFloatNum cap
    if value.blt jsZero || jsOne.blt value then none
    else (buildHex rest).map (fun s => toHexByte value.floorMul255 ++ s)

/-- The parsing part of the `xdgDesktopPortal` strategy applied to the
stdout of the `dbus-send` query: exactly three `double ⟨number⟩` tokens are
required, every channel must lie in `[0, 1]`, and the result is
`'#' + three hex bytes`. -/
def xdgDesktopPortal (output : String) : Option String :=
  let ms := xdgMatches output
  if ms.length ≠ 3 then none
  else (buildHex ms).map (fun s => "#" ++ s)

example : xdgDesktopPortal "double 0.92 double 0.33 double 0.13" = some "#ea5421" := by decide

example : xdgDesktopPortal "   variant ( double 0.92\n double 0.33\n double 0.13 )" =
    some "#ea5421" := by decide

example : xdgDesktopPortal "double 0,92 double 0.33 double 0.13" = some "#005421" := by decide

example : xdgDesktopPortal "double 0.5 double 0.5" = none := by decide

example : xdgDesktopPortal "double 1.5 double 0.5 double 0.5" = none := by decide

example : xdgDesktopPortal "double 1.0 double 0 double 0.999" = some "#ff00fe" := by decide

/-! ## The `ubuntu` strategy (gtk-theme / Yaru themes) -/

/-- The variant alternation of the `ubuntu` regex
`^'Yaru(?:-(bark|sage|olive|viridian|prussiangreen|blue|purple|magenta|red))?(?:-dark)?'$`. -/
def yaruVariants : List String :=
  ["bark", "sage", "olive", "viridian", "prussiangreen", "blue", "purple", "magenta", "red"]

/-- Match the anchored `ubuntu` regex against the trimmed output.
`none`: no match; `some none`: matched with no variant group (`match[1]`
is `undefined`); `some (some v)`: matched with captured variant `v`.
No variant name contains `-` and none equals `dark`, so the decomposition
into `'Yaru` + optional `-variant` + optional `-dark` + `'` is unique. -/
def yaruMatch (t : List Char) : Option (Option String) :=
  match stripPrefixList "'Yaru".toList t with
  | none => none
  | some rest =>
    if rest = "'".toList || rest = "-dark'".toList then some none
    else
      match yaruVariants.find?
          (fun v => rest = ("-" ++ v ++ "'").toList || rest = ("-" ++ v ++ "-dark'").toList) with
      | some v => some (some v)
      | none => none

/-- The `switch (match[1])` of the `ubuntu` strategy. -/
def yaruColor : Option String → Option String
  | none => some "#e95420"
  | some "bark" => some "#787859"
  | some "sage" => some "#657b69"
  | some "olive" => some "#4b8501"
  | some "viridian" => some "#03875b"
  | some "prussiangreen" => some "#308280"
  | some "blue" => some "#0073e5"
  | some "purple" => some "#7764d8"
  | some "magenta" => some "#b34bc3"
  | some "red" => some "#da3450"
  | some _ => none

/-- The parsing part of the `ubuntu` strategy applied to the stdout of
`gsettings get org.gnome.desktop.interface gtk-theme`. -/
def ubuntu (output : String) : Option String :=
  match yaruMatch (jsTrim output.toList) with
  | none => none
  | some variant => yaruColor variant

example : ubuntu "'Yaru'\n" = some "#e95420" := by decide
example : ubuntu "'Yaru-purple-dark'" = some "#7764d8" := by decide
example : ubuntu "'Yaru-dark'" = some "#e95420" := by decide
example : ubuntu "'Yaru-blue'" = some "#0073e5" := by decide
example : ubuntu "'Adwaita'" = none := by decide
example : ubuntu "'Yaru-darkred'" = none := by decide

/-! ## The `gnomeCustomAccentColorExtension` strategy -/

/-- The name alternation of the extension regex
`^'(green|yellow|orange|red|pink|purple|brown)'$`. -/
def extensionNames : List String :=
  ["green", "yellow", "orange", "red", "pink", "purple", "brown"]

/-- Match the anchored extension regex against the trimmed output,
returning the captured color name. -/
def extensionMatch (t : List Char) : Option String :=
  extensionNames.find? (fun n => t = ("'" ++ n ++ "'").toList)

/-- The `switch (match[1])` of the extension strategy. -/
def extensionColor : String → Option String
  | "green" => some "#2ec27e"
  | "yellow" => some "#f5c211"
  | "orange" => some "#e66100"
  | "red" => some "#c01c28"
  | "pink" => some "#dc8add"
  | "purple" => some "#813d9c"
  | "brown" => some "#865e3c"
  | _ => none

/-- The parsing part of the `gnomeCustomAccentColorExtension` strategy
applied to the stdout of
`gsettings get org.gnome.shell.extensions.custom-accent-colors accent-color`. -/
def gnomeCustomAccentColorExtension (output : String) : Option String :=
  match extensionMatch (jsTrim output.toList) with
  | none => none
  | some name => extensionColor name

example : gnomeCustomAccentColorExtension "'brown'\n" = some "#865e3c" := by decide
example : gnomeCustomAccentColorExtension "'purple-dark'" = none := by decide
example : gnomeCustomAccentColorExtension "'unknown'" = none := by decide

/-! ## The dispatcher `getLinuxAccentColor` -/

/-- The outcome of one external command run by `runCommandHelper`:
`fail e` is a rejected promise (spawn error, or non-zero exit with the
`Exit code: ..., Stderr: ...` message) carrying the rejection value `e`;
`ok output` is a resolved promise carrying the accumulated stdout. -/
inductive CmdOutcome where
  | fail (e : String)
  | ok (output : String)
  deriving DecidableEq, Repr

/-- An environment: what each strategy's external command yields when run.
A stable environment is one value of this type (every run of the same
command yields the same outcome). -/
def Env := Fin 3 → CmdOutcome

/-- The module-level `strategies` array, as the parsing part of each
strategy (index 0: `xdgDesktopPortal`, 1: `ubuntu`,
2: `gnomeCustomAccentColorExtension`). -/
def strategyParse : Fin 3 → String → Option String
  | 0 => xdgDesktopPortal
  | 1 => ubuntu
  | 2 => gnomeCustomAccentColorExtension

/-- Running `strategies[i]()` in environment `env`: a failed command
rejects (throws) with the rejection value; a successful command's stdout
is parsed by the strategy. -/
def probe (env : Env) (i : Fin 3) : Except String (Option String) :=
  match env i with
  | .fail e => .error e
  | .ok output => .ok (strategyParse i output)

/-- The module-level variable `usedStrategyIndex`:
`unknown` is `undefined`, `resolved i` is the index `i` of the strategy
that worked, `exhausted` is `-1`. -/
inductive DetState where
  | unknown
  | resolved (i : Fin 3)
  | exhausted
  deriving DecidableEq, Repr

instance {ε α : Type} [DecidableEq ε] [DecidableEq α] : DecidableEq (Except ε α) := fun a b =>
  match a, b with
  | .error e, .error e' =>
    if h : e = e' then .isTrue (by rw [h]) else .isFalse (by simp [h])
  | .error _, .ok _ => .isFalse (by simp)
  | .ok _, .error _ => .isFalse (by simp)
  | .ok c, .ok c' =>
    if h : c = c' then .isTrue (by rw [h]) else .isFalse (by simp [h])

/-- One call to `getLinuxAccentColor`: the indices of the strategies it
invoked (in order), the value it returns (or the error it throws), and
the state `usedStrategyIndex` holds afterwards. -/
structure DetectResult where
  invoked : List (Fin 3)
  result : Except String (Option String)
  state : DetState
  deriving DecidableEq, Repr

/-- The discovery loop (`for (let i = 0; i < strategies.length; i++)`):
a thrown error is swallowed by the empty `catch`, a `null` parse falls
through; the first non-null color sets `usedStrategyIndex = i` and is
returned; falling off the loop sets `usedStrategyIndex = -1`.
Returns (returned color, new state, invoked indices). -/
def tryStrategies (env : Env) : List (Fin 3) → Option String × DetState × List (Fin 3)
  | [] => (none, .exhausted, [])
  | i :: rest =>
    match probe env i with
    | .error _ =>
      let (r, s, tr) := tryStrategies env rest
      (r, s, i :: tr)
    | .ok none =>
      let (r, s, tr) := tryStrategies env rest
      (r, s, i :: tr)
    | .ok (some c) => (some c, .resolved i, [i])

/-- One call to `getLinuxAccentColor` from state `st` in environment
`env`.  In state `resolved i` the strategy's outcome — including a thrown
error — passes through unhandled (and `usedStrategyIndex` is not
touched); in state `exhausted` nothing is invoked and `null` is returned;
in state `unknown` the discovery loop runs. -/
def getLinuxAccentColor (st : DetState) (env : Env) : DetectResult :=
  match st with
  | .exhausted => ⟨[], .ok none, .exhausted⟩
  | .resolved i =>
    match probe env i with
    | .error e => ⟨[i], .error e, .resolved i⟩
    | .ok c => ⟨[i], .ok c, .resolved i⟩
  | .unknown =>
    let (r, s, tr) := tryStrategies env [0, 1, 2]
    ⟨tr, .ok r, s⟩

/-- The color a strategy contributes during discovery: `none` when its
command fails or its parse does not apply. -/
def probeColor (env : Env) (i : Fin 3) : Option String :=
  match probe env i with
  | .ok (some c) => some c
  | _ => none

/-! ## Bridge lemmas: exact decimals vs rationals -/

theorem JsNum.blt_iff (a b : JsNum) : a.blt b = true ↔ a.toQ < b.toQ := by
  rw [JsNum.blt, JsNum.toQ, JsNum.toQ, decide_eq_true_eq]
  rw [div_lt_div_iff₀ (by positivity) (by positivity)]
  rw [← Nat.cast_lt (α := ℚ)]
  push_cast
  ring_nf

theorem JsNum.toQ_nonneg (a : JsNum) : 0 ≤ a.toQ := by
  rw [JsNum.toQ]
  positivity

theorem jsZero_toQ : jsZero.toQ = 0 := by norm_num [jsZero, JsNum.toQ]

theorem jsOne_toQ : jsOne.toQ = 1 := by norm_num [jsOne, JsNum.toQ]

theorem JsNum.floorMul255_eq (v : JsNum) :
    v.floorMul255 = Int.toNat ⌊v.toQ * 255⌋ := by
  have h : v.toQ * 255 = ((255 * v.mant : ℕ) : ℚ) / ((10 ^ v.scale : ℕ) : ℚ) := by
    rw [JsNum.toQ]
    push_cast
    ring
  rw [JsNum.floorMul255, h, Int.floor_toNat, Nat.floor_div_eq_div]

theorem rangeCheck_false_iff (v : JsNum) :
    (v.blt jsZero || jsOne.blt v) = false ↔ 0 ≤ v.toQ ∧ v.toQ ≤ 1 := by
  rw [Bool.or_eq_false_iff]
  constructor
  · rintro ⟨h0, h1⟩
    rw [Bool.eq_false_iff] at h0 h1
    constructor
    · exact JsNum.toQ_nonneg v
    · by_contra hgt
      exact h1 ((JsNum.blt_iff _ _).2 (by rw [jsOne_toQ]; exact lt_of_not_le hgt))
  · rintro ⟨h0, h1⟩
    constructor
    · rw [Bool.eq_false_iff]
      intro hc
      rw [JsNum.blt_iff, jsZero_toQ] at hc
      exact absurd h0 (not_le.2 hc)
    · rw [Bool.eq_false_iff]
      intro hc
      rw [JsNum.blt_iff, jsOne_toQ] at hc
      exact absurd h1 (not_le.2 hc)

theorem buildHex_eq (caps : List (List Char)) :
    buildHex caps =
      if ∀ cap ∈ caps, 0 ≤ parseFloatQ cap ∧ parseFloatQ cap ≤ 1 then
        some ((caps.map fun cap => toHexByte (Int.toNat ⌊parseFloatQ cap * 255⌋)).foldr
          (· ++ ·) "")
      else none := by
  induction caps with
  | nil => simp [buildHex]
  | cons cap rest ih =>
    have hsplit : buildHex (cap :: rest) =
        if (parseFloatNum cap).blt jsZero || jsOne.blt (parseFloatNum cap) then none
        else (buildHex rest).map
          (fun s => toHexByte (parseFloatNum cap).floorMul255 ++ s) := rfl
    have hq : parseFloatQ cap = (parseFloatNum cap).toQ := rfl
    rcases Bool.eq_false_or_eq_true
        ((parseFloatNum cap).blt jsZero || jsOne.blt (parseFloatNum cap)) with hb | hb
    · have hr : ¬ (0 ≤ parseFloatQ cap ∧ parseFloatQ cap ≤ 1) := by
        intro hcontra
        rw [hq] at hcontra
        rw [(rangeCheck_false_iff _).2 hcontra] at hb
        exact Bool.false_ne_true hb
      rw [hsplit, hb, if_pos rfl,
        if_neg (fun hall => hr (hall cap (List.mem_cons_self cap rest)))]
    · have hr : 0 ≤ parseFloatQ cap ∧ parseFloatQ cap ≤ 1 := by
        rw [hq]; exact (rangeCheck_false_iff _).1 hb
      rw [hsplit, hb, if_neg Bool.false_ne_true, ih]
      by_cases hrest : ∀ c ∈ rest, 0 ≤ parseFloatQ c ∧ parseFloatQ c ≤ 1
      · rw [if_pos hrest,
          if_pos (show ∀ c ∈ cap :: rest, 0 ≤ parseFloatQ c ∧ parseFloatQ c ≤ 1 from
            List.forall_mem_cons.2 ⟨hr, hrest⟩)]
        simp [JsNum.floorMul255_eq, parseFloatQ]
      · rw [if_neg hrest,
          if_neg (show ¬ ∀ c ∈ cap :: rest, 0 ≤ parseFloatQ c ∧ parseFloatQ c ≤ 1 from
            fun hall => hrest fun c hc => hall c (List.mem_cons_of_mem cap hc))]
        rfl

/-- A lowercase hexadecimal digit character. -/
def isLowerHexDigit (c : Char) : Bool :=
  ('0' ≤ c && c ≤ '9') || ('a' ≤ c && c ≤ 'f')

/-- A 7-character lowercase `#rrggbb` string: `'#'` followed by six
lowercase hex digits. -/
def isHexColorFormat (s : String) : Bool :=
  match s.data with
  | '#' :: rest => rest.length = 6 && rest.all isLowerHexDigit
  | _ => false

theorem isLowerHexDigit_hexDigit {m : Nat} (h : m < 16) :
    isLowerHexDigit (hexDigit m) = true := by
  interval_cases m <;> decide

theorem toHexByte_all_hex {n : Nat} (h : n ≤ 255) :
    (toHexByte n).data.all isLowerHexDigit = true := by
  have h1 : n / 16 < 16 := Nat.div_lt_iff_lt_mul (by norm_num) |>.2 (by omega)
  have h2 : n % 16 < 16 := Nat.mod_lt _ (by norm_num)
  simp [toHexByte, isLowerHexDigit_hexDigit h1, isLowerHexDigit_hexDigit h2]

theorem floor255_le_255 {v : ℚ} (h1 : v ≤ 1) : Int.toNat ⌊v * 255⌋ ≤ 255 := by
  rw [Int.toNat_le]
  calc ⌊v * 255⌋ ≤ ⌊(255 : ℚ)⌋ := Int.floor_le_floor (by nlinarith)
  _ = 255 := by norm_num

theorem isHexColorFormat_hash_bytes {a b c : Nat} (ha : a ≤ 255) (hb : b ≤ 255)
    (hc : c ≤ 255) :
    isHexColorFormat ("#" ++ (toHexByte a ++ (toHexByte b ++ (toHexByte c ++ "")))) = true := by
  have hdata : ("#" ++ (toHexByte a ++ (toHexByte b ++ (toHexByte c ++ "")))).data =
      '#' :: [hexDigit (a / 16), hexDigit (a % 16), hexDigit (b / 16), hexDigit (b % 16),
        hexDigit (c / 16), hexDigit (c % 16)] := by
    simp [toHexByte]
  have hdiv : ∀ n : Nat, n ≤ 255 → isLowerHexDigit (hexDigit (n / 16)) = true := fun n hn =>
    isLowerHexDigit_hexDigit (Nat.div_lt_iff_lt_mul (by norm_num) |>.2 (by omega))
  have hmod : ∀ n : Nat, isLowerHexDigit (hexDigit (n % 16)) = true := fun n =>
    isLowerHexDigit_hexDigit (Nat.mod_lt _ (by norm_num))
  simp only [isHexColorFormat, hdata]
  simp only [Bool.and_eq_true, decide_eq_true_eq, List.all_eq_true]
  refine ⟨by simp, ?_⟩
  intro x hx
  simp only [List.mem_cons, List.not_mem_nil, or_false] at hx
  rcases hx with h | h | h | h | h | h <;> rw [h]
  · exact hdiv a ha
  · exact hmod a
  · exact hdiv b hb
  · exact hmod b
  · exact hdiv c hc
  · exact hmod c

/-- Modelled from the spec (§4.2): the probe succeeds exactly when the
reply has exactly three `double ⟨number⟩` tokens with every extracted
value in the closed range `[0, 1]`, and then yields `'#'` followed by the
two-digit lowercase hex rendering of `floor(value * 255)` for each
channel in order.  Written from the claim's words, for comparison with
the source translation `xdgDesktopPortal`. -/
def portalSpec (output : String) : Option String :=
  if (xdgMatches output).length = 3 ∧ ∀ v ∈ xdgValues output, 0 ≤ v ∧ v ≤ 1 then
    some ("#" ++ ((xdgValues output).map fun v => toHexByte (Int.toNat ⌊v * 255⌋)).foldr
      (· ++ ·) "")
  else none

/-- C4: the Portal strategy returns a non-null color iff its command
output contains exactly three `double ⟨number⟩` tokens with every
extracted value in `[0, 1]`; fewer or more tokens, or any out-of-range
value, yields `null`; on success each channel is `floor(value * 255)` as
a two-digit lowercase hex byte and the result is a 7-character lowercase
`#rrggbb` string. -/
theorem portal_characterization (output : String) :
    xdgDesktopPortal output = portalSpec output ∧
    ∀ s, xdgDesktopPortal output = some s → isHexColorFormat s = true := by
  have hvals : ∀ (P : ℚ → Prop),
      (∀ v ∈ xdgValues output, P v) ↔ ∀ cap ∈ xdgMatches output, P (parseFloatQ cap) := by
    intro P
    rw [xdgValues, List.forall_mem_map]
  have hmain : xdgDesktopPortal output = portalSpec output := by
    rw [xdgDesktopPortal, portalSpec]
    by_cases hlen : (xdgMatches output).length = 3
    · rw [if_neg (by omega), buildHex_eq]
      by_cases hrange : ∀ v ∈ xdgValues output, 0 ≤ v ∧ v ≤ 1
      · rw [if_pos ((hvals _).1 hrange), if_pos ⟨hlen, hrange⟩]
        rw [Option.map_some']
        congr 1
        rw [xdgValues, List.map_map]
        rfl
      · rw [if_neg (fun hall => hrange ((hvals _).2 hall)),
          if_neg (fun hand => hrange hand.2)]
        rfl
    · rw [if_pos hlen, if_neg (fun hand => hlen hand.1)]
  refine ⟨hmain, ?_⟩
  intro s hs
  rw [hmain, portalSpec] at hs
  by_cases hcond : (xdgMatches output).length = 3 ∧ ∀ v ∈ xdgValues output, 0 ≤ v ∧ v ≤ 1
  · rw [if_pos hcond] at hs
    have hlen3 : (xdgValues output).length = 3 := by
      rw [xdgValues, List.length_map]
      exact hcond.1
    obtain ⟨v1, v2, v3, hv⟩ := List.length_eq_three.1 hlen3
    have hb1 : Int.toNat ⌊v1 * 255⌋ ≤ 255 :=
      floor255_le_255 (hcond.2 v1 (by rw [hv]; simp)).2
    have hb2 : Int.toNat ⌊v2 * 255⌋ ≤ 255 :=
      floor255_le_255 (hcond.2 v2 (by rw [hv]; simp)).2
    have hb3 : Int.toNat ⌊v3 * 255⌋ ≤ 255 :=
      floor255_le_255 (hcond.2 v3 (by rw [hv]; simp)).2
    rw [hv] at hs
    simp only [List.map_cons, List.map_nil, List.foldr_cons, List.foldr_nil,
      Option.some_inj] at hs
    rw [← hs]
    exact isHexColorFormat_hash_bytes hb1 hb2 hb3
  · rw [if_neg hcond] at hs
    simp at hs

/-- C10: the portal token pattern captures only unsigned numbers, so
every extracted channel value is non-negative, the `value < 0.0` branch
can never fire, and an out-of-range rejection (with three tokens present)
can only come from a value strictly greater than 1. -/
theorem portal_values_nonneg (output : String) :
    (∀ v ∈ xdgValues output, 0 ≤ v) ∧
    (xdgDesktopPortal output = none ↔
      (xdgMatches output).length ≠ 3 ∨ ∃ v ∈ xdgValues output, 1 < v) := by
  have h1 : ∀ v ∈ xdgValues output, 0 ≤ v := by
    intro v hv
    rw [xdgValues] at hv
    obtain ⟨cap, _, rfl⟩ := List.mem_map.1 hv
    exact JsNum.toQ_nonneg _
  refine ⟨h1, ?_⟩
  rw [(portal_characterization output).1, portalSpec]
  by_cases hcond : (xdgMatches output).length = 3 ∧ ∀ v ∈ xdgValues output, 0 ≤ v ∧ v ≤ 1
  · rw [if_pos hcond]
    constructor
    · intro h
      exact absurd h (Option.some_ne_none _)
    · rintro (hlen | ⟨v, hv, hgt⟩)
      · exact absurd hcond.1 hlen
      · exact absurd (hcond.2 v hv).2 (not_le.2 hgt)
  · rw [if_neg hcond]
    refine ⟨fun _ => ?_, fun _ => rfl⟩
    rcases not_and_or.1 hcond with h | h
    · exact Or.inl h
    · push_neg at h
      obtain ⟨v, hv, hnot⟩ := h
      exact Or.inr ⟨v, hv, hnot (h1 v hv)⟩

/-- Witness for `portal_values_nonneg` at a concrete output whose single
token `double 2` extracts the value `2`. -/
theorem portal_values_nonneg_witness :
    (2 : ℚ) ∈ xdgValues "double 2" ∧ 0 ≤ (2 : ℚ) := by
  have hm : (2 : ℚ) ∈ xdgValues "double 2" := by
    have hms : xdgMatches "double 2" = [['2']] := by decide
    have h2 : parseFloatNum ['2'] = ⟨2, 0⟩ := by decide
    rw [xdgValues, hms]
    simp [parseFloatQ, h2, JsNum.toQ]
  exact ⟨hm, (portal_values_nonneg "double 2").1 2 hm⟩

/-- C6 counterexample: for a reply with exactly the tokens
`double 0.92`, `double 0.33`, `double 0.13` the probe does NOT return
`#ea5521` (0.33 · 255 floors to 84 = 0x54, not 0x55). -/
theorem portal_scenario_not_ea5521 :
    xdgDesktopPortal "double 0.92 double 0.33 double 0.13" ≠ some "#ea5521" := by decide

/-- C6 amended: for a reply with exactly the tokens `double 0.92`,
`double 0.33`, `double 0.13` the Portal strategy returns `#ea5421`
(234 = 0xea, 84 = 0x54, 33 = 0x21 by the floor formula). -/
theorem portal_scenario_ea5421 :
    xdgDesktopPortal "double 0.92 double 0.33 double 0.13" = some "#ea5421" := by decide

/-- C5 counterexample: `parseFloat` stops at a comma, so the token
`double 0,92` is extracted as the value `0` (not `0.92`), and replacing
`,` by `.` as the decimal separator changes the probe's result. -/
theorem portal_comma_counterexample :
    parseFloatQ ("0,92".toList) = 0 ∧
    xdgDesktopPortal "double 0,92 double 0.33 double 0.13" ≠
      xdgDesktopPortal "double 0.92 double 0.33 double 0.13" := by
  constructor
  · have h : parseFloatNum ("0,92".toList) = ⟨0, 0⟩ := by decide
    rw [parseFloatQ, h, JsNum.toQ]
    norm_num
  · decide

theorem takeWhile_digits_append (ds rest' : List Char) (h : ∀ c ∈ ds, c.isDigit = true) :
    (ds ++ ',' :: rest').takeWhile Char.isDigit = ds := by
  induction ds with
  | nil => rfl
  | cons d ds ih =>
    have hd : d.isDigit = true := h d (List.mem_cons_self d ds)
    simp only [List.cons_append, List.takeWhile_cons, hd]
    rw [ih (fun c hc => h c (List.mem_cons_of_mem d hc))]
    simp

theorem dropWhile_digits_append (ds rest' : List Char) (h : ∀ c ∈ ds, c.isDigit = true) :
    (ds ++ ',' :: rest').dropWhile Char.isDigit = ',' :: rest' := by
  induction ds with
  | nil => rfl
  | cons d ds ih =>
    have hd : d.isDigit = true := h d (List.mem_cons_self d ds)
    simp only [List.cons_append, List.dropWhile_cons, hd]
    exact ih (fun c hc => h c (List.mem_cons_of_mem d hc))

/-- C5 amended: a comma token is recognized by the pattern (it counts
toward the three required tokens), but `parseFloat` stops at the comma,
so the extracted value of a capture `⟨digits⟩,⟨anything⟩` is just the
integer part; hence in `double 0,92 double 0.33 double 0.13` the first
channel becomes `0` and the probe yields `#005421`. -/
theorem portal_comma_truncates (ds rest' : List Char) (h : ∀ c ∈ ds, c.isDigit = true) :
    parseFloatQ (ds ++ ',' :: rest') = (digitsToNat ds : ℚ) ∧
    xdgDesktopPortal "double 0,92 double 0.33 double 0.13" = some "#005421" := by
  constructor
  · rw [parseFloatQ]
    have hnum : parseFloatNum (ds ++ ',' :: rest') = ⟨digitsToNat ds, 0⟩ := by
      rw [parseFloatNum]
      rw [takeWhile_digits_append ds rest' h, dropWhile_digits_append ds rest' h]
      split
      · next frac heq =>
        rw [List.cons.injEq] at heq
        exact absurd heq.1 (by decide)
      · rfl
    rw [hnum, JsNum.toQ]
    norm_num
  · decide

/-- Witness for `portal_comma_truncates` at the capture `9,2`. -/
theorem portal_comma_truncates_witness :
    (∀ c ∈ ['9'], c.isDigit = true) ∧
    (parseFloatQ (['9'] ++ ',' :: ['2']) = (digitsToNat ['9'] : ℚ) ∧
      xdgDesktopPortal "double 0,92 double 0.33 double 0.13" = some "#005421") :=
  ⟨by decide, portal_comma_truncates ['9'] ['2'] (by decide)⟩

/-! ## Characterizations of the two `gsettings` strategies -/

theorem stripPrefixList_eq_some_iff (p : List Char) :
    ∀ (cs r : List Char), stripPrefixList p cs = some r ↔ cs = p ++ r := by
  induction p with
  | nil =>
    intro cs r
    simp [stripPrefixList]
  | cons a ps ih =>
    intro cs r
    cases cs with
    | nil => simp [stripPrefixList]
    | cons c cs' =>
      by_cases hc : c = a
      · subst hc
        simp [stripPrefixList, ih]
      · simp [stripPrefixList, hc]

theorem stripPrefixList_self_append (p r : List Char) :
    stripPrefixList p (p ++ r) = some r :=
  (stripPrefixList_eq_some_iff p (p ++ r) r).2 rfl

/-- Modelled from the spec's table for the Extension strategy (§4.4):
each recognized quoted name paired with its fixed hex value. -/
def extensionTable : List (String × String) :=
  [("'green'", "#2ec27e"), ("'yellow'", "#f5c211"), ("'orange'", "#e66100"),
   ("'red'", "#c01c28"), ("'pink'", "#dc8add"), ("'purple'", "#813d9c"),
   ("'brown'", "#865e3c")]

theorem extension_lookup (t : List Char) :
    (match extensionMatch t with
     | none => none
     | some name => extensionColor name) =
      (extensionTable.find? (fun p => decide (t = p.1.toList))).map Prod.snd := by
  by_cases hmem : t ∈ extensionTable.map (fun p => p.1.toList)
  · fin_cases hmem <;> decide
  · have h1 : extensionMatch t = none := by
      rw [extensionMatch, List.find?_eq_none]
      intro n hn hdec
      rw [decide_eq_true_eq] at hdec
      have hkey : ("'" ++ n ++ "'").toList ∈ extensionTable.map (fun p => p.1.toList) := by
        fin_cases hn <;> decide
      exact hmem (hdec ▸ hkey)
    have h2 : extensionTable.find? (fun p => decide (t = p.1.toList)) = none := by
      rw [List.find?_eq_none]
      intro p hp hdec
      rw [decide_eq_true_eq] at hdec
      exact hmem (hdec ▸ List.mem_map_of_mem _ hp)
    rw [h1, h2]
    rfl

/-- C8: the Extension strategy returns a non-null color iff the trimmed
output is one of the seven quoted names, each mapping to its fixed hex
value (`'brown'` → `#865e3c`); anything else — including names with a
`-dark` suffix — yields `null`. -/
theorem extension_characterization (output : String) :
    gnomeCustomAccentColorExtension output =
      (extensionTable.find? (fun p => decide (jsTrim output.toList = p.1.toList))).map
        Prod.snd ∧
    gnomeCustomAccentColorExtension "'brown'" = some "#865e3c" ∧
    gnomeCustomAccentColorExtension "'purple-dark'" = none := by
  refine ⟨?_, by decide, by decide⟩
  rw [gnomeCustomAccentColorExtension]
  exact extension_lookup (jsTrim output.toList)

/-- Modelled from the spec's table for the Theme-Name strategy (§4.3):
every valid trimmed `gtk-theme` output (base `Yaru`, nine variants, each
with and without the `-dark` suffix) paired with its fixed hex value. -/
def yaruTable : List (String × String) :=
  [("'Yaru'", "#e95420"), ("'Yaru-dark'", "#e95420"),
   ("'Yaru-bark'", "#787859"), ("'Yaru-bark-dark'", "#787859"),
   ("'Yaru-sage'", "#657b69"), ("'Yaru-sage-dark'", "#657b69"),
   ("'Yaru-olive'", "#4b8501"), ("'Yaru-olive-dark'", "#4b8501"),
   ("'Yaru-viridian'", "#03875b"), ("'Yaru-viridian-dark'", "#03875b"),
   ("'Yaru-prussiangreen'", "#308280"), ("'Yaru-prussiangreen-dark'", "#308280"),
   ("'Yaru-blue'", "#0073e5"), ("'Yaru-blue-dark'", "#0073e5"),
   ("'Yaru-purple'", "#7764d8"), ("'Yaru-purple-dark'", "#7764d8"),
   ("'Yaru-magenta'", "#b34bc3"), ("'Yaru-magenta-dark'", "#b34bc3"),
   ("'Yaru-red'", "#da3450"), ("'Yaru-red-dark'", "#da3450")]

theorem yaru_lookup (t : List Char) :
    (match yaruMatch t with
     | none => none
     | some variant => yaruColor variant) =
      (yaruTable.find? (fun p => decide (t = p.1.toList))).map Prod.snd := by
  rcases hp : stripPrefixList "'Yaru".toList t with _ | rest
  · have hlhs : yaruMatch t = none := by
      rw [yaruMatch, hp]
    have hrhs : yaruTable.find? (fun p => decide (t = p.1.toList)) = none := by
      rw [List.find?_eq_none]
      intro p hp2 hdec
      rw [decide_eq_true_eq] at hdec
      have hkey : p.1.toList = "'Yaru".toList ++ p.1.toList.drop 5 := by
        fin_cases hp2 <;> decide
      rw [hdec, hkey, stripPrefixList_self_append] at hp
      exact Option.noConfusion hp
    rw [hlhs, hrhs]
    rfl
  · have ht : t = "'Yaru".toList ++ rest :=
      (stripPrefixList_eq_some_iff "'Yaru".toList t rest).1 hp
    subst ht
    by_cases hmem : rest ∈ yaruTable.map (fun p => p.1.toList.drop 5)
    · fin_cases hmem <;> decide
    · have h1 : rest ≠ "'".toList := fun h =>
        hmem (h ▸ (by decide : "'".toList ∈ yaruTable.map (fun p => p.1.toList.drop 5)))
      have h2 : rest ≠ "-dark'".toList := fun h =>
        hmem (h ▸ (by decide : "-dark'".toList ∈ yaruTable.map (fun p => p.1.toList.drop 5)))
      have hfind : yaruVariants.find?
          (fun v => rest = ("-" ++ v ++ "'").toList ||
            rest = ("-" ++ v ++ "-dark'").toList) = none := by
        rw [List.find?_eq_none]
        intro v hv hpred
        rw [Bool.or_eq_true] at hpred
        rcases hpred with h | h <;> rw [decide_eq_true_eq] at h
        · refine hmem ?_
          rw [h]
          fin_cases hv <;> decide
        · refine hmem ?_
          rw [h]
          fin_cases hv <;> decide
      have hymatch : yaruMatch ("'Yaru".toList ++ rest) = none := by
        rw [yaruMatch, stripPrefixList_self_append]
        simp only [h1, h2, hfind]
        simp
      have hrfind : yaruTable.find?
          (fun p => decide ("'Yaru".toList ++ rest = p.1.toList)) = none := by
        rw [List.find?_eq_none]
        intro p hp2 hdec
        rw [decide_eq_true_eq] at hdec
        have hkey : p.1.toList = "'Yaru".toList ++ p.1.toList.drop 5 := by
          fin_cases hp2 <;> decide
        rw [hkey] at hdec
        have hr : rest = p.1.toList.drop 5 := List.append_cancel_left hdec
        exact hmem (hr ▸ List.mem_map_of_mem _ hp2)
      rw [hymatch, hrfind]
      rfl

/-- C7: the Theme-Name strategy returns a non-null color iff the trimmed
output has the form `'Yaru[-<variant>][-dark]'` with the variant absent or
one of the nine recognized names; no variant gives `#e95420`, and each
variant maps to its single fixed hex value (`'Yaru-purple-dark'` →
`#7764d8`, `'Yaru'` → `#e95420`, blue → `#0073e5`, red → `#da3450`). -/
theorem ubuntu_characterization (output : String) :
    ubuntu output =
      (yaruTable.find? (fun p => decide (jsTrim output.toList = p.1.toList))).map Prod.snd ∧
    ubuntu "'Yaru'" = some "#e95420" ∧
    ubuntu "'Yaru-purple-dark'" = some "#7764d8" ∧
    ubuntu "'Yaru-blue'" = some "#0073e5" ∧
    ubuntu "'Yaru-red'" = some "#da3450" := by
  refine ⟨?_, by decide, by decide, by decide, by decide⟩
  rw [ubuntu]
  exact yaru_lookup (jsTrim output.toList)

/-! ## Dispatcher lemmas -/

theorem probeColor_eq_some {env : Env} {i : Fin 3} {c : String} :
    probeColor env i = some c ↔ probe env i = .ok (some c) := by
  rw [probeColor]
  rcases h : probe env i with e | c'
  · simp
  · cases c' <;> simp

theorem tryStrategies_cons_err {env : Env} {i : Fin 3} {rest : List (Fin 3)} {e : String}
    (h : probe env i = .error e) :
    tryStrategies env (i :: rest) =
      ((tryStrategies env rest).1, (tryStrategies env rest).2.1,
        i :: (tryStrategies env rest).2.2) := by
  rcases htr : tryStrategies env rest with ⟨r, s, tr⟩
  simp [tryStrategies, h, htr]

theorem tryStrategies_cons_none {env : Env} {i : Fin 3} {rest : List (Fin 3)}
    (h : probe env i = .ok none) :
    tryStrategies env (i :: rest) =
      ((tryStrategies env rest).1, (tryStrategies env rest).2.1,
        i :: (tryStrategies env rest).2.2) := by
  rcases htr : tryStrategies env rest with ⟨r, s, tr⟩
  simp [tryStrategies, h, htr]

theorem tryStrategies_cons_some {env : Env} {i : Fin 3} {rest : List (Fin 3)} {c : String}
    (h : probe env i = .ok (some c)) :
    tryStrategies env (i :: rest) = (some c, .resolved i, [i]) := by
  simp [tryStrategies, h]

/-- A `probeColor`-level case split for one discovery step. -/
theorem tryStrategies_cons_noneColor {env : Env} {i : Fin 3} {rest : List (Fin 3)}
    (h : probeColor env i = none) :
    tryStrategies env (i :: rest) =
      ((tryStrategies env rest).1, (tryStrategies env rest).2.1,
        i :: (tryStrategies env rest).2.2) := by
  rw [probeColor] at h
  rcases hp : probe env i with e | c'
  · exact tryStrategies_cons_err hp
  · cases c' with
    | none => exact tryStrategies_cons_none hp
    | some c =>
      rw [hp] at h
      exact absurd h (by simp)

theorem tryStrategies_spec (env : Env) (l : List (Fin 3)) :
    ((tryStrategies env l).1 = none ∧ (tryStrategies env l).2.1 = DetState.exhausted) ∨
    ∃ i c, probe env i = .ok (some c) ∧ (tryStrategies env l).1 = some c ∧
      (tryStrategies env l).2.1 = DetState.resolved i := by
  induction l with
  | nil => exact Or.inl ⟨rfl, rfl⟩
  | cons i rest ih =>
    rcases hp : probe env i with e | c'
    · rw [tryStrategies_cons_err hp]
      exact ih
    · cases c' with
      | none =>
        rw [tryStrategies_cons_none hp]
        exact ih
      | some c =>
        rw [tryStrategies_cons_some hp]
        exact Or.inr ⟨i, c, hp, rfl, rfl⟩

/-- `getLinuxAccentColor` from `unknown`, with the discovery triple
exposed by projections. -/
theorem getLAC_unknown (env : Env) :
    getLinuxAccentColor .unknown env =
      ⟨(tryStrategies env [0, 1, 2]).2.2, .ok (tryStrategies env [0, 1, 2]).1,
        (tryStrategies env [0, 1, 2]).2.1⟩ := by
  rcases htr : tryStrategies env [0, 1, 2] with ⟨r, s, tr⟩
  simp [getLinuxAccentColor, htr]

/-- C1: from state `Unknown` the dispatcher tries the strategies in the
fixed order Portal (0), Theme-Name (1), Extension (2); failures and null
parses are suppressed; the first strategy yielding a color wins, its
index is recorded and the color returned; if none yields a color the
state becomes `Exhausted` and `null` is returned. -/
theorem dispatcher_discovery (env : Env) :
    ((∀ i, probeColor env i = none) →
      getLinuxAccentColor .unknown env = ⟨[0, 1, 2], .ok none, .exhausted⟩) ∧
    (∀ (i : Fin 3) (c : String), probeColor env i = some c →
      (∀ j, j < i → probeColor env j = none) →
      getLinuxAccentColor .unknown env =
        ⟨(List.finRange 3).take (i.1 + 1), .ok (some c), .resolved i⟩) := by
  constructor
  · intro h
    rw [getLAC_unknown,
      @tryStrategies_cons_noneColor env 0 [1, 2] (h 0),
      @tryStrategies_cons_noneColor env 1 [2] (h 1),
      @tryStrategies_cons_noneColor env 2 [] (h 2)]
    rfl
  · intro i c hc hprev
    have hfin : ∀ j : Fin 3, j = 0 ∨ j = 1 ∨ j = 2 := by decide
    rcases hfin i with rfl | rfl | rfl
    · rw [getLAC_unknown, tryStrategies_cons_some (probeColor_eq_some.1 hc)]
      rfl
    · rw [getLAC_unknown,
        @tryStrategies_cons_noneColor env 0 [1, 2] (hprev 0 (by decide)),
        tryStrategies_cons_some (probeColor_eq_some.1 hc)]
      rfl
    · rw [getLAC_unknown,
        @tryStrategies_cons_noneColor env 0 [1, 2] (hprev 0 (by decide)),
        @tryStrategies_cons_noneColor env 1 [2] (hprev 1 (by decide)),
        tryStrategies_cons_some (probeColor_eq_some.1 hc)]
      rfl

/-- C2: during discovery the call never throws; in state `Resolved(i)` it
throws exactly when strategy `i`'s command fails (the rejection value
propagating unchanged), while a successful command is parsed and a parse
mismatch just yields `null`. -/
theorem dispatcher_error_propagation (env : Env) :
    (∃ r, (getLinuxAccentColor .unknown env).result = .ok r) ∧
    (∀ (i : Fin 3) (e : String), env i = .fail e →
      (getLinuxAccentColor (.resolved i) env).result = .error e) ∧
    (∀ (i : Fin 3) (out : String), env i = .ok out →
      (getLinuxAccentColor (.resolved i) env).result = .ok (strategyParse i out)) ∧
    (∀ i : Fin 3, (∃ e, (getLinuxAccentColor (.resolved i) env).result = .error e) ↔
      (∃ e, env i = .fail e)) := by
  refine ⟨⟨(tryStrategies env [0, 1, 2]).1, by rw [getLAC_unknown]⟩, ?_, ?_, ?_⟩
  · intro i e h
    simp [getLinuxAccentColor, probe, h]
  · intro i out h
    simp [getLinuxAccentColor, probe, h]
  · intro i
    rcases h : env i with e | out <;> simp [getLinuxAccentColor, probe, h]

/-- C3: the memoization state never reverts: a call from `Unknown` always
leaves a non-`Unknown` state, a call from any other state leaves the
state unchanged, a call from `Resolved(i)` invokes exactly strategy `i`,
and a call from `Exhausted` invokes nothing and returns `null`. -/
theorem dispatcher_state_machine (st : DetState) (env : Env) :
    (st = .unknown → (getLinuxAccentColor st env).state ≠ .unknown) ∧
    (st ≠ .unknown → (getLinuxAccentColor st env).state = st) ∧
    (∀ i : Fin 3, st = .resolved i → (getLinuxAccentColor st env).invoked = [i]) ∧
    (st = .exhausted → getLinuxAccentColor st env = ⟨[], .ok none, .exhausted⟩) := by
  cases st with
  | unknown =>
    refine ⟨fun _ => ?_, fun h => absurd rfl h, fun i h => by simp at h, fun h => by simp at h⟩
    rw [getLAC_unknown]
    rcases tryStrategies_spec env [0, 1, 2] with ⟨_, h2⟩ | ⟨i, c, _, _, h2⟩ <;> simp [h2]
  | resolved i =>
    refine ⟨fun h => by simp at h, fun _ => ?_, fun j hj => ?_, fun h => by simp at h⟩
    · rcases hp : probe env i with e | c <;> simp [getLinuxAccentColor, hp]
    · rw [DetState.resolved.injEq] at hj
      subst hj
      rcases hp : probe env i with e | c <;> simp [getLinuxAccentColor, hp]
  | exhausted =>
    exact ⟨fun h => by simp at h, fun _ => rfl, fun i h => by simp at h, fun _ => rfl⟩

/-- C9: with a stable environment (each command yields the same outcome
on every run), a second call from the state the first call left behind
returns the same result as the first call. -/
theorem detect_idempotent (st : DetState) (env : Env) :
    (getLinuxAccentColor (getLinuxAccentColor st env).state env).result =
      (getLinuxAccentColor st env).result := by
  cases st with
  | exhausted => rfl
  | resolved i =>
    rcases hp : probe env i with e | c <;> simp [getLinuxAccentColor, hp]
  | unknown =>
    rw [getLAC_unknown]
    rcases tryStrategies_spec env [0, 1, 2] with ⟨h1, h2⟩ | ⟨i, c, hpc, h1, h2⟩
    · rw [h1, h2]
      rfl
    · rw [h1, h2]
      simp [getLinuxAccentColor, hpc]

/-- A concrete environment where the Portal command fails to launch, the
Theme-Name query answers `'Yaru-blue'` and the Extension query answers an
unrecognized name. -/
def envWinner : Fin 3 → CmdOutcome
  | 0 => .fail "spawn dbus-send ENOENT"
  | 1 => .ok "'Yaru-blue'"
  | 2 => .ok "'unknown'"

/-- Witness for `dispatcher_discovery`: in `envWinner` strategy 1 wins
with `#0073e5` after strategy 0 is suppressed. -/
theorem dispatcher_discovery_witness :
    probeColor envWinner 1 = some "#0073e5" ∧
    (∀ j, j < (1 : Fin 3) → probeColor envWinner j = none) ∧
    getLinuxAccentColor .unknown envWinner =
      ⟨(List.finRange 3).take ((1 : Fin 3).1 + 1), .ok (some "#0073e5"), .resolved 1⟩ :=
  ⟨by decide, by decide,
    (dispatcher_discovery envWinner).2 1 "#0073e5" (by decide) (by decide)⟩

/-- A concrete environment where strategies 0 and 2 fail with transport
errors and strategy 1 answers `'Yaru'`. -/
def envFail : Fin 3 → CmdOutcome
  | 0 => .fail "Exit code: 1, Stderr: "
  | 1 => .ok "'Yaru'"
  | 2 => .fail "Exit code: 127, Stderr: not found"

/-- Witness for `dispatcher_error_propagation`: a resolved strategy whose
command fails throws the rejection value; a resolved strategy whose
command succeeds returns its parse. -/
theorem dispatcher_error_witness :
    envFail 0 = CmdOutcome.fail "Exit code: 1, Stderr: " ∧
    (getLinuxAccentColor (.resolved 0) envFail).result = .error "Exit code: 1, Stderr: " ∧
    envFail 1 = CmdOutcome.ok "'Yaru'" ∧
    (getLinuxAccentColor (.resolved 1) envFail).result = .ok (strategyParse 1 "'Yaru'") :=
  ⟨by decide, (dispatcher_error_propagation envFail).2.1 0 _ (by decide), by decide,
    (dispatcher_error_propagation envFail).2.2.1 1 _ (by decide)⟩

/-- Witness for `dispatcher_state_machine` at concrete states. -/
theorem dispatcher_state_witness :
    (getLinuxAccentColor (.resolved 2) envFail).state = .resolved 2 ∧
    (getLinuxAccentColor (.resolved 2) envFail).invoked = [2] ∧
    getLinuxAccentColor .exhausted envFail = ⟨[], .ok none, .exhausted⟩ ∧
    (getLinuxAccentColor .unknown envFail).state ≠ .unknown :=
  ⟨(dispatcher_state_machine (.resolved 2) envFail).2.1 (by decide),
    (dispatcher_state_machine (.resolved 2) envFail).2.2.1 2 rfl,
    (dispatcher_state_machine .exhausted envFail).2.2.2 rfl,
    (dispatcher_state_machine .unknown envFail).1 rfl⟩

/-- Witness for `portal_characterization`: a concrete three-token reply
produces a 7-character lowercase hex color. -/
theorem portal_characterization_witness :
    xdgDesktopPortal "double 1 double 0 double 0.5" = some "#ff007f" ∧
    isHexColorFormat "#ff007f" = true :=
  ⟨by decide,
    (portal_characterization "double 1 double 0 double 0.5").2 "#ff007f" (by decide)⟩
